import Mathlib

/-!
Shallow embedding of the orders service (`src/project/service_orders/main.py`):
the status transition table, the order record, and the five HTTP handlers
(create, get-list, update, cancel), modelled as pure functions over an explicit
order store (a list of rows, as returned by the SQL scans the handlers issue).
Python floats are modelled as rationals; UUIDs and timestamps as naturals.
-/

namespace OrdersService

/-- A line item of an order (`OrderItem` pydantic model). -/
structure OrderItem where
  product_id : Nat
  product_name : String
  quantity : Int
  price : Rat
  deriving DecidableEq, Repr

/-- Request body of `POST /v1/orders` (`OrderCreate` pydantic model). -/
structure OrderCreate where
  items : List OrderItem
  total_amount : Rat
  deriving DecidableEq, Repr

/-- Request body of `PUT /v1/orders/:order_id` (`OrderUpdate` pydantic model):
`status: Optional[str] = None`, so an absent or JSON-null field is `none`. -/
structure OrderUpdate where
  status : Option String
  deriving DecidableEq, Repr

/-- A row of the `orders` table, in the column layout the handlers index into
(`order[0]..order[6]`). -/
structure Order where
  id : Nat
  user_id : Nat
  items : List OrderItem
  total_amount : Rat
  status : String
  created_at : Nat
  updated_at : Nat
  deriving DecidableEq, Repr

/-- The authenticated caller: the JWT payload fields the handlers read
(`current_user.get('user_id')`, `current_user.get('role')`). -/
structure Caller where
  user_id : Nat
  role : String
  deriving DecidableEq, Repr

/-- `ORDER_STATUSES` from the source. -/
def ORDER_STATUSES : List String := ["created", "in_progress", "completed", "cancelled"]

/-- `VALID_STATUS_TRANSITIONS` from the source, as the lookup the code performs:
`VALID_STATUS_TRANSITIONS.get(current_status, [])`, so a key outside the dict
yields the empty list. -/
def VALID_STATUS_TRANSITIONS (current_status : String) : List String :=
  if current_status = "created" then ["in_progress", "cancelled"]
  else if current_status = "in_progress" then ["completed", "cancelled"]
  else if current_status = "completed" then []
  else if current_status = "cancelled" then []
  else []

/-- `is_valid_status_transition` from the source. -/
def is_valid_status_transition (current_status new_status : String) : Bool :=
  (VALID_STATUS_TRANSITIONS current_status).contains new_status

/-- Python truthiness of an `Optional[str]`: `None` and the empty string are
falsy (`if order_update.status:` / `if status:`). -/
def strTruthy : Option String → Bool
  | none => false
  | some s => s != ""

/-- Error responses the handlers build (`BaseResponse` with `success=False`);
each constructor records the stable `code` plus the data interpolated into the
message where a claim refers to it. -/
inductive ErrorInfo where
  | orderNotFound
  | accessDenied
  | invalidStatus
  | invalidStatusTransition (current_status : String) (allowed : List String)
  | cannotCancel (current_status : String)
  | validationError
  deriving DecidableEq, Repr

/-- `SELECT * FROM orders WHERE id = %s` followed by `fetchone()`. -/
def findOrder (db : List Order) (order_id : Nat) : Option Order :=
  db.find? (fun o => o.id == order_id)

/-- `UPDATE orders SET status = %s, updated_at = CURRENT_TIMESTAMP WHERE id = %s`. -/
def setStatus (db : List Order) (order_id : Nat) (new_status : String) (now : Nat) :
    List Order :=
  db.map (fun o =>
    if o.id == order_id then { o with status := new_status, updated_at := now } else o)

/-- The pydantic validation run on an incoming `OrderCreate` body: each item
needs `quantity > 0` and `price >= 0`, and `total_amount > 0`. There is no
validator on the `items` list itself. -/
def orderCreateValid (order_data : OrderCreate) : Bool :=
  order_data.items.all (fun it => decide (0 < it.quantity) && decide (0 ≤ it.price))
    && decide (0 < order_data.total_amount)

/-- `POST /v1/orders` (`create_order`): after request validation, insert a fresh
row with status `created`. `fresh_id` stands for the generated `uuid4`, `now`
for the insert timestamp. -/
def create_order (db : List Order) (order_data : OrderCreate) (user_id : Nat)
    (fresh_id : Nat) (now : Nat) : Except ErrorInfo Nat × List Order :=
  if orderCreateValid order_data then
    (.ok fresh_id,
      db ++ [{ id := fresh_id, user_id := user_id, items := order_data.items,
               total_amount := order_data.total_amount, status := "created",
               created_at := now, updated_at := now }])
  else (.error .validationError, db)

/-- `PUT /v1/orders/:order_id` (`update_order`): lookup, then the
owner-or-admin check, then — only when the `status` field is truthy —
recognition against `ORDER_STATUSES` and the transition-table check, then the
atomic status write. A falsy `status` field skips all validation and succeeds. -/
def update_order (db : List Order) (order_id : Nat) (order_update : OrderUpdate)
    (current_user : Caller) (now : Nat) : Except ErrorInfo Unit × List Order :=
  match findOrder db order_id with
  | none => (.error .orderNotFound, db)
  | some order =>
    if order.user_id ≠ current_user.user_id ∧ current_user.role ≠ "admin" then
      (.error .accessDenied, db)
    else
      match order_update.status with
      | none => (.ok (), db)
      | some new_status =>
        if new_status = "" then (.ok (), db)
        else if new_status ∈ ORDER_STATUSES then
          if is_valid_status_transition order.status new_status then
            (.ok (), setStatus db order_id new_status now)
          else
            (.error (.invalidStatusTransition order.status
                      (VALID_STATUS_TRANSITIONS order.status)), db)
        else (.error .invalidStatus, db)

/-- `DELETE /v1/orders/:order_id` (`cancel_order`): lookup, then the strict
owner-only check (role is never consulted), then the transition check to
`cancelled`, then the atomic status write. -/
def cancel_order (db : List Order) (order_id : Nat) (current_user : Caller)
    (now : Nat) : Except ErrorInfo Unit × List Order :=
  match findOrder db order_id with
  | none => (.error .orderNotFound, db)
  | some order =>
    if order.user_id ≠ current_user.user_id then
      (.error .accessDenied, db)
    else if is_valid_status_transition order.status "cancelled" then
      (.ok (), setStatus db order_id "cancelled" now)
    else (.error (.cannotCancel order.status), db)

/-- Payload of a successful `GET /v1/orders` response. -/
structure ListData where
  orders : List Order
  total : Nat
  page : Int
  size : Int
  deriving DecidableEq, Repr

/-- The optional `status` query filter: appended to the WHERE clause only when
truthy (`if status:`). -/
def applyStatusFilter : Option String → List Order → List Order
  | none, l => l
  | some s, l => if s = "" then l else l.filter (fun o => o.status == s)

/-- The filtered set the listing query ranges over: all orders for an admin
caller, the caller's own orders otherwise, then the optional status filter. -/
def filteredOrders (db : List Order) (current_user : Caller)
    (status_filter : Option String) : List Order :=
  applyStatusFilter status_filter
    (if current_user.role = "admin" then db
     else db.filter (fun o => o.user_id == current_user.user_id))

/-- `ORDER BY created_at DESC`: row `a` may precede row `b` when
`b.created_at ≤ a.created_at`. -/
def createdDesc (a b : Order) : Prop := b.created_at ≤ a.created_at

instance : DecidableRel createdDesc := fun a b => Nat.decLe b.created_at a.created_at

instance : IsTotal Order createdDesc := ⟨fun a b => Nat.le_total b.created_at a.created_at⟩

instance : IsTrans Order createdDesc :=
  ⟨fun _ _ _ h h' => Nat.le_trans h' h⟩

/-- `GET /v1/orders` (`get_user_orders`): the query-parameter constraints
`page: int = Query(1, ge=1)`, `size: int = Query(10, ge=1, le=100)` reject an
out-of-range value with a validation error before the handler runs; otherwise
the handler scans the filtered set ordered by `created_at` descending with
`LIMIT size OFFSET (page-1)*size`, and counts the filtered set for `total`. -/
def get_user_orders (db : List Order) (current_user : Caller) (page size : Int)
    (status_filter : Option String) : Except ErrorInfo ListData :=
  if page < 1 ∨ size < 1 ∨ 100 < size then .error .validationError
  else
    let flt := filteredOrders db current_user status_filter
    let sorted := List.insertionSort createdDesc flt
    .ok { orders := (sorted.drop ((page - 1) * size).toNat).take size.toNat,
          total := flt.length, page := page, size := size }

/-- The order rows of a listing response (empty on an error response). -/
def listedOrders : Except ErrorInfo ListData → List Order
  | .ok d => d.orders
  | .error _ => []

instance {ε α : Type} [DecidableEq ε] [DecidableEq α] : DecidableEq (Except ε α) := fun a b =>
  match a, b with
  | .ok x, .ok y => if h : x = y then .isTrue (by rw [h]) else .isFalse (by simp [h])
  | .ok _, .error _ => .isFalse (by simp)
  | .error _, .ok _ => .isFalse (by simp)
  | .error x, .error y => if h : x = y then .isTrue (by rw [h]) else .isFalse (by simp [h])

/-! ### Store lemmas -/

/-- Writing the status of row `order_id` and reading row `order_id` back:
the looked-up row is the old one with `status` and `updated_at` replaced. -/
theorem findOrder_setStatus_same (db : List Order) (order_id : Nat) (s : String) (t : Nat) :
    findOrder (setStatus db order_id s t) order_id =
      (findOrder db order_id).map (fun o => { o with status := s, updated_at := t }) := by
  induction db with
  | nil => rfl
  | cons hd tl ih =>
    unfold findOrder at ih ⊢
    simp only [setStatus, List.map_cons] at ih ⊢
    by_cases h : hd.id = order_id
    · rw [List.find?_cons_of_pos _ (by simp [h]), List.find?_cons_of_pos _ (by simp [h])]
      simp [h]
    · rw [List.find?_cons_of_neg _ (by simp [h]), List.find?_cons_of_neg _ (by simp [h])]
      exact ih

/-- Writing the status of one row leaves the lookup of every other row
unchanged. -/
theorem findOrder_setStatus_ne (db : List Order) (target_id order_id : Nat)
    (s : String) (t : Nat) (h : target_id ≠ order_id) :
    findOrder (setStatus db target_id s t) order_id = findOrder db order_id := by
  induction db with
  | nil => rfl
  | cons hd tl ih =>
    unfold findOrder at ih ⊢
    simp only [setStatus, List.map_cons] at ih ⊢
    by_cases hor : hd.id = order_id
    · have hhd : ¬ hd.id = target_id := fun hc => h (by rw [← hc, hor])
      rw [List.find?_cons_of_pos _ (by simp [hor, Ne.symm h]),
        List.find?_cons_of_pos _ (by simp [hor])]
      simp [hhd]
    · by_cases hhd : hd.id = target_id
      · rw [List.find?_cons_of_neg _ (by simp [hhd, hor, h]),
          List.find?_cons_of_neg _ (by simp [hor])]
        exact ih
      · rw [List.find?_cons_of_neg _ (by simp [hhd, hor]), List.find?_cons_of_neg _ (by simp [hor])]
        exact ih

/-- Appending a row to the store does not disturb the lookup of an id absent
from the old store. -/
theorem findOrder_append_of_none (db : List Order) (o : Order) (x : Nat)
    (h : findOrder db x = none) :
    findOrder (db ++ [o]) x = if o.id == x then some o else none := by
  unfold findOrder at h ⊢
  rw [List.find?_append, h, Option.none_or]
  by_cases hb : o.id = x
  · rw [List.find?_cons_of_pos _ (by simp [hb])]
    simp [hb]
  · rw [List.find?_cons_of_neg _ (by simp [hb])]
    simp [hb]

/-- No status appears in its own allowed-target list. -/
theorem is_valid_status_transition_self (s : String) :
    is_valid_status_transition s s = false := by
  unfold is_valid_status_transition VALID_STATUS_TRANSITIONS
  split
  · next h => subst h; decide
  · split
    · next h => subst h; decide
    · split
      · next h => subst h; decide
      · split
        · next h => subst h; decide
        · simp

/-- A terminal (or unknown) status has an empty allowed-target list. -/
theorem VALID_STATUS_TRANSITIONS_terminal (s : String)
    (h : s = "completed" ∨ s = "cancelled") : VALID_STATUS_TRANSITIONS s = [] := by
  rcases h with h | h <;> rw [h] <;> decide

/-- Cancellation is a legal transition exactly from `created` and `in_progress`. -/
theorem is_valid_to_cancelled_iff (s : String) :
    is_valid_status_transition s "cancelled" = true ↔
      (s = "created" ∨ s = "in_progress") := by
  unfold is_valid_status_transition VALID_STATUS_TRANSITIONS
  split
  · next h => subst h; decide
  · split
    · next h => subst h; decide
    · split
      · next h => subst h; decide
      · split
        · next h => subst h; decide
        · next h1 h2 h3 h4 => simp [h1, h2]

/-- `true` on an error response, `false` on a success response. -/
def isErr {α : Type} : Except ErrorInfo α → Bool
  | .error _ => true
  | .ok _ => false

/-! ### Sample rows and callers used to instantiate the theorems -/

def orderA : Order :=
  { id := 1, user_id := 10, items := [], total_amount := 5,
    status := "created", created_at := 100, updated_at := 100 }

def itemB : OrderItem :=
  { product_id := 7, product_name := "w", quantity := 2, price := 10 }

def orderB : Order :=
  { id := 2, user_id := 20, items := [itemB], total_amount := 20,
    status := "in_progress", created_at := 90, updated_at := 95 }

def orderC : Order :=
  { id := 3, user_id := 10, items := [], total_amount := 5,
    status := "completed", created_at := 80, updated_at := 85 }

def orderD : Order :=
  { id := 4, user_id := 10, items := [], total_amount := 5,
    status := "cancelled", created_at := 70, updated_at := 75 }

def sampleDb : List Order := [orderA, orderB, orderC, orderD]

def owner10 : Caller := { user_id := 10, role := "user" }

def owner20 : Caller := { user_id := 20, role := "user" }

def admin99 : Caller := { user_id := 99, role := "admin" }

def stranger7 : Caller := { user_id := 7, role := "user" }

/-! ### Claim theorems -/

/-- C5: authorization is checked before transition validation. For a caller who
is neither the order's owner nor an admin, `update_order` answers
`ACCESS_DENIED` with the store untouched — and the response does not depend on
the requested new status at all (the `order_update` argument is arbitrary, and
the right-hand side does not mention it), so it is identical whether the status
is absent, unrecognized, or a legal or illegal transition target. -/
theorem update_order_access_denied_first (db : List Order) (order_id : Nat)
    (order_update : OrderUpdate) (current_user : Caller) (now : Nat) (order : Order)
    (hfind : findOrder db order_id = some order)
    (hown : order.user_id ≠ current_user.user_id)
    (hrole : current_user.role ≠ "admin") :
    update_order db order_id order_update current_user now = (.error .accessDenied, db) := by
  simp only [update_order, hfind]
  rw [if_pos ⟨hown, hrole⟩]

theorem update_order_access_denied_first_witness :
    update_order sampleDb 1 { status := some "in_progress" } stranger7 200 =
      (.error .accessDenied, sampleDb) :=
  update_order_access_denied_first sampleDb 1 { status := some "in_progress" } stranger7 200
    orderA (by decide) (by decide) (by decide)

/-- C9: `GET /v1/orders` rejects `page < 1`, `size < 1` and `size > 100` with a
validation error. The conclusion holds for every store and does not read it
(the right-hand side is independent of `db`), and no clamped listing is
returned. -/
theorem get_user_orders_rejects_out_of_range (db : List Order) (current_user : Caller)
    (page size : Int) (status_filter : Option String)
    (h : page < 1 ∨ size < 1 ∨ 100 < size) :
    get_user_orders db current_user page size status_filter = .error .validationError := by
  unfold get_user_orders
  rw [if_pos h]

theorem get_user_orders_rejects_out_of_range_witness :
    get_user_orders sampleDb owner10 0 101 none = .error .validationError :=
  get_user_orders_rejects_out_of_range sampleDb owner10 0 101 none (by decide)

/-- C10: a status-update request by the owner or an admin whose `status` field
is absent, JSON-null (both `none`) or the empty string succeeds and leaves the
store — hence the stored record, its status and its `updated_at` — unchanged:
the falsy field skips recognition, transition validation and the SQL update. -/
theorem update_order_falsy_status_noop (db : List Order) (order_id : Nat)
    (order_update : OrderUpdate) (current_user : Caller) (now : Nat) (order : Order)
    (hfind : findOrder db order_id = some order)
    (hauth : order.user_id = current_user.user_id ∨ current_user.role = "admin")
    (hfalsy : order_update.status = none ∨ order_update.status = some "") :
    update_order db order_id order_update current_user now = (.ok (), db) := by
  have hcond : ¬ (order.user_id ≠ current_user.user_id ∧ current_user.role ≠ "admin") := by
    rcases hauth with h | h
    · exact fun hc => hc.1 h
    · exact fun hc => hc.2 h
  simp only [update_order, hfind]
  rw [if_neg hcond]
  rcases hfalsy with h | h <;> simp [h]

theorem update_order_falsy_status_noop_witness :
    update_order sampleDb 1 { status := some "" } admin99 200 = (.ok (), sampleDb) :=
  update_order_falsy_status_noop sampleDb 1 { status := some "" } admin99 200 orderA
    (by decide) (by decide) (by decide)

/-- C1: for a stored order and a recognized requested status, a status update
by the owner or an admin succeeds exactly when the pair (current status,
requested status) is in the transition table — the lookup
`VALID_STATUS_TRANSITIONS.get(current, [])` followed by membership — and every
other pair fails with `INVALID_STATUS_TRANSITION` carrying the current status
and its allowed-target list, leaving the store untouched. -/
theorem update_order_transition_table (db : List Order) (order_id : Nat)
    (new_status : String) (current_user : Caller) (now : Nat) (order : Order)
    (hfind : findOrder db order_id = some order)
    (hauth : order.user_id = current_user.user_id ∨ current_user.role = "admin")
    (hrec : new_status ∈ ORDER_STATUSES) :
    (new_status ∈ VALID_STATUS_TRANSITIONS order.status →
        update_order db order_id { status := some new_status } current_user now =
          (.ok (), setStatus db order_id new_status now))
      ∧ (new_status ∉ VALID_STATUS_TRANSITIONS order.status →
        update_order db order_id { status := some new_status } current_user now =
          (.error (.invalidStatusTransition order.status
            (VALID_STATUS_TRANSITIONS order.status)), db)) := by
  have hcond : ¬ (order.user_id ≠ current_user.user_id ∧ current_user.role ≠ "admin") := by
    rcases hauth with h | h
    · exact fun hc => hc.1 h
    · exact fun hc => hc.2 h
  have hne : new_status ≠ "" := by
    intro hc
    subst hc
    exact absurd hrec (by decide)
  constructor <;> intro hmem
  · have hv : is_valid_status_transition order.status new_status = true := by
      simpa [is_valid_status_transition] using hmem
    simp only [update_order, hfind]
    rw [if_neg hcond, if_neg hne, if_pos hrec, if_pos hv]
  · have hv : ¬ is_valid_status_transition order.status new_status = true := by
      simpa [is_valid_status_transition] using hmem
    simp only [update_order, hfind]
    rw [if_neg hcond, if_neg hne, if_pos hrec, if_neg hv]

theorem update_order_transition_table_witness :
    update_order sampleDb 1 { status := some "in_progress" } owner10 200 =
      (.ok (), setStatus sampleDb 1 "in_progress" 200) :=
  (update_order_transition_table sampleDb 1 "in_progress" owner10 200 orderA
    (by decide) (by decide) (by decide)).1 (by decide)

/-- C3: `cancel_order` answers `ACCESS_DENIED` to every caller other than the
owner — the caller's role is never consulted, so the conclusion holds in
particular for an admin — and, for the owner, succeeds exactly when the current
status is `created` or `in_progress` (then the stored status becomes
`cancelled`), failing with `CANNOT_CANCEL` on every other status, in particular
the terminal ones. -/
theorem cancel_order_owner_only (db : List Order) (order_id : Nat)
    (current_user : Caller) (now : Nat) (order : Order)
    (hfind : findOrder db order_id = some order) :
    (order.user_id ≠ current_user.user_id →
        cancel_order db order_id current_user now = (.error .accessDenied, db))
      ∧ (order.user_id = current_user.user_id →
        ((order.status = "created" ∨ order.status = "in_progress") →
            cancel_order db order_id current_user now =
              (.ok (), setStatus db order_id "cancelled" now)
            ∧ findOrder (cancel_order db order_id current_user now).2 order_id =
                some { order with status := "cancelled", updated_at := now })
          ∧ (¬ (order.status = "created" ∨ order.status = "in_progress") →
            cancel_order db order_id current_user now =
              (.error (.cannotCancel order.status), db))) := by
  refine ⟨fun hown => ?_, fun hown => ⟨fun hst => ?_, fun hst => ?_⟩⟩
  · simp only [cancel_order, hfind]
    rw [if_pos hown]
  · have hv : is_valid_status_transition order.status "cancelled" = true :=
      (is_valid_to_cancelled_iff order.status).mpr hst
    have heq : cancel_order db order_id current_user now =
        (.ok (), setStatus db order_id "cancelled" now) := by
      simp only [cancel_order, hfind]
      rw [if_neg (by simp [hown]), if_pos hv]
    refine ⟨heq, ?_⟩
    rw [heq, findOrder_setStatus_same, hfind]
    rfl
  · have hv : ¬ is_valid_status_transition order.status "cancelled" = true := by
      rw [is_valid_to_cancelled_iff]; exact hst
    simp only [cancel_order, hfind]
    rw [if_neg (by simp [hown]), if_neg hv]

theorem cancel_order_owner_only_witness :
    cancel_order sampleDb 2 owner20 300 = (.ok (), setStatus sampleDb 2 "cancelled" 300) :=
  ((((cancel_order_owner_only sampleDb 2 owner20 300 orderB (by decide)).2
    (by decide)).1) (by decide)).1

/-- The store after `update_order` is either untouched, or is a status write of
the requested status onto the target row after a successful transition check. -/
theorem update_order_db_cases (db : List Order) (t : Nat) (upd : OrderUpdate)
    (u : Caller) (now : Nat) :
    (update_order db t upd u now).2 = db ∨
      ∃ s ord, upd.status = some s ∧ findOrder db t = some ord ∧
        is_valid_status_transition ord.status s = true ∧
        (update_order db t upd u now).2 = setStatus db t s now := by
  cases hf : findOrder db t with
  | none => left; simp [update_order, hf]
  | some ord =>
    by_cases hauth : ord.user_id ≠ u.user_id ∧ u.role ≠ "admin"
    · left; simp [update_order, hf, hauth]
    · cases hs : upd.status with
      | none => left; simp [update_order, hf, hauth, hs]
      | some s =>
        by_cases he : s = ""
        · left; simp [update_order, hf, hauth, hs, he]
        · by_cases hrec : s ∈ ORDER_STATUSES
          · by_cases hv : is_valid_status_transition ord.status s = true
            · refine Or.inr ⟨s, ord, rfl, rfl, hv, ?_⟩
              simp [update_order, hf, hauth, hs, he, hrec, hv]
            · left; simp [update_order, hf, hauth, hs, he, hrec, hv]
          · left; simp [update_order, hf, hauth, hs, he, hrec]

/-- The store after `cancel_order` is either untouched, or is a `cancelled`
status write onto the target row after a successful transition check. -/
theorem cancel_order_db_cases (db : List Order) (t : Nat) (u : Caller) (now : Nat) :
    (cancel_order db t u now).2 = db ∨
      ∃ ord, findOrder db t = some ord ∧
        is_valid_status_transition ord.status "cancelled" = true ∧
        (cancel_order db t u now).2 = setStatus db t "cancelled" now := by
  cases hf : findOrder db t with
  | none => left; simp [cancel_order, hf]
  | some ord =>
    by_cases hown : ord.user_id ≠ u.user_id
    · left; simp [cancel_order, hf, hown]
    · by_cases hv : is_valid_status_transition ord.status "cancelled" = true
      · refine Or.inr ⟨ord, rfl, hv, ?_⟩
        simp [cancel_order, hf, hown, hv]
      · left; simp [cancel_order, hf, hown, hv]

/-- C2: terminality is an invariant. For a stored order whose status is
`completed` or `cancelled`, every `update_order` and every `cancel_order` call
— on this order or any other, by any caller — leaves this order's stored row
(status and all) exactly as it was, and every transition attempt against it (a
status update whose `status` field is truthy, or a cancellation) comes back as
an error. -/
theorem terminal_status_invariant (db : List Order) (order_id : Nat) (order : Order)
    (hfind : findOrder db order_id = some order)
    (hterm : order.status = "completed" ∨ order.status = "cancelled") :
    (∀ (t : Nat) (upd : OrderUpdate) (u : Caller) (now : Nat),
        findOrder (update_order db t upd u now).2 order_id = some order)
      ∧ (∀ (t : Nat) (u : Caller) (now : Nat),
        findOrder (cancel_order db t u now).2 order_id = some order)
      ∧ (∀ (upd : OrderUpdate) (u : Caller) (now : Nat), strTruthy upd.status = true →
        isErr (update_order db order_id upd u now).1 = true)
      ∧ (∀ (u : Caller) (now : Nat),
        isErr (cancel_order db order_id u now).1 = true) := by
  have hempty : VALID_STATUS_TRANSITIONS order.status = [] :=
    VALID_STATUS_TRANSITIONS_terminal order.status hterm
  have hvfalse : ∀ s, is_valid_status_transition order.status s = false := by
    intro s
    unfold is_valid_status_transition
    rw [hempty]
    rfl
  refine ⟨fun t upd u now => ?_, fun t u now => ?_, fun upd u now htruthy => ?_,
    fun u now => ?_⟩
  · rcases update_order_db_cases db t upd u now with h | ⟨s, ord, _, hf2, hv, h⟩
    · rw [h]; exact hfind
    · by_cases ht : t = order_id
      · subst ht
        rw [hfind] at hf2
        cases hf2
        rw [hvfalse s] at hv
        cases hv
      · rw [h, findOrder_setStatus_ne db t order_id s now ht]
        exact hfind
  · rcases cancel_order_db_cases db t u now with h | ⟨ord, hf2, hv, h⟩
    · rw [h]; exact hfind
    · by_cases ht : t = order_id
      · subst ht
        rw [hfind] at hf2
        cases hf2
        rw [hvfalse "cancelled"] at hv
        cases hv
      · rw [h, findOrder_setStatus_ne db t order_id "cancelled" now ht]
        exact hfind
  · cases hs : upd.status with
    | none => rw [hs] at htruthy; cases htruthy
    | some s =>
      have hne : s ≠ "" := by simpa [strTruthy, hs] using htruthy
      simp only [update_order, hfind]
      by_cases hauth : order.user_id ≠ u.user_id ∧ u.role ≠ "admin"
      · rw [if_pos hauth]; rfl
      · rw [if_neg hauth, hs]
        simp only [if_neg hne]
        by_cases hrec : s ∈ ORDER_STATUSES
        · rw [if_pos hrec, if_neg (by rw [hvfalse s]; exact Bool.false_ne_true)]
          rfl
        · rw [if_neg hrec]; rfl
  · simp only [cancel_order, hfind]
    by_cases hown : order.user_id ≠ u.user_id
    · rw [if_pos hown]; rfl
    · rw [if_neg hown, if_neg (by rw [hvfalse "cancelled"]; exact Bool.false_ne_true)]
      rfl

theorem terminal_status_invariant_witness :
    findOrder (update_order sampleDb 3 { status := some "in_progress" } admin99 500).2 3 =
        some orderC
      ∧ isErr (cancel_order sampleDb 3 owner10 400).1 = true :=
  ⟨(terminal_status_invariant sampleDb 3 orderC (by decide) (by decide)).1 3
      { status := some "in_progress" } admin99 500,
    (terminal_status_invariant sampleDb 3 orderC (by decide) (by decide)).2.2.2 owner10 400⟩

/-- C8: a status update is not idempotent. If an update request with the (truthy)
target status `new_status` succeeds, the immediately repeated request — same
order, same target, same caller, against the store the first call produced —
fails with `INVALID_STATUS_TRANSITION`, now reporting the moved-to current
status `new_status` and its allowed-target list, because no status's
allowed-target list contains itself. -/
theorem update_order_not_idempotent (db : List Order) (order_id : Nat)
    (new_status : String) (current_user : Caller) (now now2 : Nat) (db2 : List Order)
    (order : Order)
    (hfind : findOrder db order_id = some order)
    (hne : new_status ≠ "")
    (hsucc : update_order db order_id { status := some new_status } current_user now =
      (.ok (), db2)) :
    (update_order db2 order_id { status := some new_status } current_user now2).1 =
      .error (.invalidStatusTransition new_status (VALID_STATUS_TRANSITIONS new_status)) := by
  simp only [update_order, hfind] at hsucc
  by_cases hauth : order.user_id ≠ current_user.user_id ∧ current_user.role ≠ "admin"
  · rw [if_pos hauth] at hsucc
    cases hsucc
  · rw [if_neg hauth, if_neg hne] at hsucc
    by_cases hrec : new_status ∈ ORDER_STATUSES
    · rw [if_pos hrec] at hsucc
      by_cases hv : is_valid_status_transition order.status new_status = true
      · rw [if_pos hv] at hsucc
        have hdb2 : db2 = setStatus db order_id new_status now :=
          (congrArg Prod.snd hsucc).symm
        have hfind2 : findOrder db2 order_id =
            some { order with status := new_status, updated_at := now } := by
          rw [hdb2, findOrder_setStatus_same, hfind]
          rfl
        simp [update_order, hfind2, hauth, hne, hrec, is_valid_status_transition_self]
      · rw [if_neg hv] at hsucc
        cases hsucc
    · rw [if_neg hrec] at hsucc
      cases hsucc

theorem update_order_not_idempotent_witness :
    (update_order (setStatus sampleDb 1 "in_progress" 200) 1
        { status := some "in_progress" } owner10 300).1 =
      .error (.invalidStatusTransition "in_progress"
        (VALID_STATUS_TRANSITIONS "in_progress")) :=
  update_order_not_idempotent sampleDb 1 "in_progress" owner10 200 300
    (setStatus sampleDb 1 "in_progress" 200) orderA (by decide) (by decide) rfl

/-- C4 counterexample: the claim requires `ValidationError` for an empty `items`
list, but the `OrderCreate` model has no validator on `items` itself, so a
request with no items and a positive total passes validation: the call
succeeds and persists an order with empty items and status `created`. -/
theorem create_order_accepts_empty_items :
    (create_order [] { items := [], total_amount := 20 } 10 1 0).1 = .ok 1
      ∧ (create_order [] { items := [], total_amount := 20 } 10 1 0).2 =
        [{ id := 1, user_id := 10, items := [], total_amount := 20, status := "created",
           created_at := 0, updated_at := 0 }] :=
  ⟨rfl, rfl⟩

/-- C4 (amended): `create_order` fails with a validation error exactly when some
item has `quantity ≤ 0` or `price < 0`, or `total_amount ≤ 0` — an empty
`items` list is accepted — and when those checks pass it persists a new order
under the fresh id with status `created` and the caller as owner. -/
theorem create_order_validation (db : List Order) (order_data : OrderCreate)
    (user_id fresh_id now : Nat) :
    (((∃ it ∈ order_data.items, it.quantity ≤ 0 ∨ it.price < 0) ∨
          order_data.total_amount ≤ 0) →
        create_order db order_data user_id fresh_id now = (.error .validationError, db))
      ∧ ((∀ it ∈ order_data.items, 0 < it.quantity ∧ 0 ≤ it.price) →
          0 < order_data.total_amount →
        (create_order db order_data user_id fresh_id now).1 = .ok fresh_id
          ∧ (findOrder db fresh_id = none →
            findOrder (create_order db order_data user_id fresh_id now).2 fresh_id =
              some { id := fresh_id, user_id := user_id, items := order_data.items,
                     total_amount := order_data.total_amount, status := "created",
                     created_at := now, updated_at := now })) := by
  have hvalid_iff : orderCreateValid order_data = true ↔
      ((∀ it ∈ order_data.items, 0 < it.quantity ∧ 0 ≤ it.price) ∧
        0 < order_data.total_amount) := by
    simp [orderCreateValid, List.all_eq_true]
  constructor
  · intro hbad
    have hnv : ¬ orderCreateValid order_data = true := by
      rw [hvalid_iff]
      rintro ⟨hall, htot⟩
      rcases hbad with ⟨it, hit, hq | hp⟩ | ht
      · exact absurd (hall it hit).1 (not_lt.mpr hq)
      · exact absurd hp (not_lt.mpr (hall it hit).2)
      · exact absurd htot (not_lt.mpr ht)
    unfold create_order
    rw [if_neg hnv]
  · intro hall htot
    have hv : orderCreateValid order_data = true := hvalid_iff.mpr ⟨hall, htot⟩
    constructor
    · simp [create_order, hv]
    · intro hnone
      simp only [create_order, if_pos hv]
      rw [findOrder_append_of_none _ _ _ hnone]
      simp

theorem create_order_validation_witness :
    (create_order sampleDb { items := [itemB], total_amount := 20 } 10 5 0).1 = .ok 5 :=
  ((create_order_validation sampleDb { items := [itemB], total_amount := 20 } 10 5 0).2
    (by decide) (by decide)).1

/-- Every order passing the optional status filter comes from the unfiltered
scan. -/
theorem applyStatusFilter_subset (f : Option String) (l : List Order) :
    ∀ o ∈ applyStatusFilter f l, o ∈ l := by
  intro o ho
  cases f with
  | none => exact ho
  | some s =>
    by_cases h : s = ""
    · simpa [applyStatusFilter, h] using ho
    · simp only [applyStatusFilter, if_neg h] at ho
      exact List.mem_of_mem_filter ho

/-- Every order row in a listing response belongs to the filtered set the query
ranges over. -/
theorem mem_listedOrders_mem_filtered (db : List Order) (u : Caller) (page size : Int)
    (f : Option String) :
    ∀ o ∈ listedOrders (get_user_orders db u page size f), o ∈ filteredOrders db u f := by
  intro o ho
  unfold get_user_orders at ho
  by_cases h : page < 1 ∨ size < 1 ∨ 100 < size
  · rw [if_pos h] at ho
    simp [listedOrders] at ho
  · rw [if_neg h] at ho
    simp only [listedOrders] at ho
    have h1 : o ∈ List.insertionSort createdDesc (filteredOrders db u f) :=
      ((List.take_sublist _ _).trans (List.drop_sublist _ _)).subset ho
    exact (List.perm_insertionSort createdDesc _).mem_iff.mp h1

/-- C6: every order a non-admin caller receives from `GET /v1/orders` — for any
page, size and status filter — carries the caller's own `user_id`, while an
admin caller's rows range over the whole store restricted only by the optional
status filter. -/
theorem get_user_orders_scoping (db : List Order) (current_user : Caller)
    (page size : Int) (status_filter : Option String) :
    (current_user.role ≠ "admin" →
        ∀ o ∈ listedOrders (get_user_orders db current_user page size status_filter),
          o.user_id = current_user.user_id)
      ∧ (current_user.role = "admin" →
        ∀ o ∈ listedOrders (get_user_orders db current_user page size status_filter),
          o ∈ applyStatusFilter status_filter db) := by
  constructor
  · intro hrole o ho
    have hmem := mem_listedOrders_mem_filtered db current_user page size status_filter o ho
    unfold filteredOrders at hmem
    rw [if_neg hrole] at hmem
    have h2 := applyStatusFilter_subset _ _ o hmem
    simpa using (List.mem_filter.mp h2).2
  · intro hrole o ho
    have hmem := mem_listedOrders_mem_filtered db current_user page size status_filter o ho
    unfold filteredOrders at hmem
    rwa [if_pos hrole] at hmem

theorem get_user_orders_scoping_witness :
    orderA.user_id = owner10.user_id :=
  (get_user_orders_scoping sampleDb owner10 1 10 none).1 (by decide) orderA (by decide)

/-- C7: for in-range page and size, the listing response is exactly the slice of
the sorted filtered set starting at offset `(page-1)*size` — the slice is
sorted by `created_at` descending, has length at most `size`, and the sorted
sequence is a permutation of the filtered set — while `total` is the size of
the filtered set before pagination, an expression independent of `page`. -/
theorem get_user_orders_pagination (db : List Order) (current_user : Caller)
    (page size : Int) (status_filter : Option String)
    (hpage : 1 ≤ page) (hsize : 1 ≤ size) (hmax : size ≤ 100) :
    get_user_orders db current_user page size status_filter =
        .ok { orders := ((List.insertionSort createdDesc
                  (filteredOrders db current_user status_filter)).drop
                ((page - 1) * size).toNat).take size.toNat,
              total := (filteredOrders db current_user status_filter).length,
              page := page, size := size }
      ∧ List.Sorted createdDesc
          (listedOrders (get_user_orders db current_user page size status_filter))
      ∧ (listedOrders (get_user_orders db current_user page size status_filter)).length
          ≤ size.toNat
      ∧ List.Perm
          (List.insertionSort createdDesc (filteredOrders db current_user status_filter))
          (filteredOrders db current_user status_filter) := by
  have hcond : ¬ (page < 1 ∨ size < 1 ∨ 100 < size) := by
    push_neg
    exact ⟨hpage, hsize, hmax⟩
  have heq : get_user_orders db current_user page size status_filter =
      .ok { orders := ((List.insertionSort createdDesc
                (filteredOrders db current_user status_filter)).drop
              ((page - 1) * size).toNat).take size.toNat,
            total := (filteredOrders db current_user status_filter).length,
            page := page, size := size } := by
    simp only [get_user_orders, if_neg hcond]
  refine ⟨heq, ?_, ?_, List.perm_insertionSort createdDesc _⟩
  · rw [heq]
    simp only [listedOrders]
    exact List.Pairwise.sublist ((List.take_sublist _ _).trans (List.drop_sublist _ _))
      (List.sorted_insertionSort createdDesc _)
  · rw [heq]
    simp only [listedOrders]
    exact List.length_take_le _ _

theorem get_user_orders_pagination_witness :
    (listedOrders (get_user_orders sampleDb admin99 2 2 none)).length ≤ (2 : Int).toNat :=
  (get_user_orders_pagination sampleDb admin99 2 2 none (by decide) (by decide)
    (by decide)).2.2.1

end OrdersService
